import Mathlib

/-!
Formal model of `arch/arm64/hotplug/autosmp.c` (autosmp CPU hotplug driver).

The embedding is shallow: each C function relevant to the claims is translated
into an executable Lean definition.  Machine `unsigned int` arithmetic is
modelled on `Nat` with an explicit modulus `U32` where the C code can wrap.
The online/present cpu masks are modelled as lists of cpu ids in ascending
order (the order in which `for_each_online_cpu` / `for_each_present_cpu`
iterate); per-core current frequencies are a function `freq : Nat → Nat`.
Topology commands issued by the code (`cpu_up` / `cpu_down`) are collected in
a list, in program order, together with the (ignored) collaborator return
values.
-/

/-- Modulus of the C `unsigned int` type. -/
def U32 : Nat := 4294967296

/-- Largest value of the C `unsigned int` type (`UINT_MAX`), the initial
value of `slow_rate` in `asmp_work_fn`. -/
def UINT_MAX : Nat := 4294967295

/-- The `struct asmp_tunables` of the driver.  All fields are C `int`s that
the sysfs setters constrain to small positive ranges, so they are modelled
as `Nat`. -/
structure Tunables where
  delay : Nat
  scroff_single_core : Nat
  max_cpus : Nat
  min_cpus : Nat
  cpufreq_up : Nat
  cpufreq_down : Nat
  cycle_up : Nat
  cycle_down : Nat
deriving DecidableEq, Repr

/-- A topology command issued to the cpu hotplug collaborator:
`cpu_up cpu` or `cpu_down cpu`. -/
inductive TopoCmd where
  | up (cpu : Nat)
  | down (cpu : Nat)
deriving DecidableEq, Repr

/-- The scan-local variables of `asmp_work_fn`: `slow_cpu`, `slow_rate` and
`fast_rate`. -/
structure ScanState where
  slow_cpu : Nat
  slow_rate : Nat
  fast_rate : Nat
deriving DecidableEq, Repr

/-- One iteration of the `for_each_online_cpu` loop body of `asmp_work_fn`:

    if (cpu > 0) {
      rate = cpufreq_quick_get(cpu);
      if (rate <= slow_rate) { slow_cpu = cpu; slow_rate = rate; }
      else if (rate > fast_rate) { fast_rate = rate; }
    }
-/
def scanStep (freq : Nat → Nat) (s : ScanState) (cpu : Nat) : ScanState :=
  if 0 < cpu then
    if freq cpu ≤ s.slow_rate then { s with slow_cpu := cpu, slow_rate := freq cpu }
    else if s.fast_rate < freq cpu then { s with fast_rate := freq cpu }
    else s
  else s

/-- The whole `for_each_online_cpu` scan of `asmp_work_fn`, starting from
`slow_cpu = 0`, `slow_rate = UINT_MAX`, `fast_rate = cpu0_rate`. -/
def scanCpus (freq : Nat → Nat) (online : List Nat) (cpu0_rate : Nat) : ScanState :=
  online.foldl (scanStep freq) { slow_cpu := 0, slow_rate := UINT_MAX, fast_rate := cpu0_rate }

/-- The unsigned computation `tunables.cpufreq_up * max_rate / 100`. -/
def upRate (t : Tunables) (max_rate : Nat) : Nat :=
  t.cpufreq_up * max_rate % U32 / 100

/-- The unsigned computation `tunables.cpufreq_down * max_rate / 100`. -/
def downRate (t : Tunables) (max_rate : Nat) : Nat :=
  t.cpufreq_down * max_rate % U32 / 100

/-- The value of `slow_rate` after the post-scan adjustment
`if (cpu0_rate < slow_rate) slow_rate = cpu0_rate;`. -/
def slowRateFinal (freq : Nat → Nat) (online : List Nat) : Nat :=
  if freq 0 < (scanCpus freq online (freq 0)).slow_rate then freq 0
  else (scanCpus freq online (freq 0)).slow_rate

/-- Linux `cpumask_next_zero(n, mask)`: the first cpu id strictly greater
than `n` that is not in the mask, or `nr_cpus` if every such id below
`nr_cpus` is set. -/
def cpumask_next_zero (n : Nat) (online : List Nat) (nr_cpus : Nat) : Nat :=
  (((List.range nr_cpus).filter (fun c => decide (n < c ∧ c ∉ online)))).headD nr_cpus

/-- The lowest-numbered cpu id below `nr_cpus` that is not in `online`
(or `nr_cpus` if there is none).  Spec-side description of the core that the
upshift rule is supposed to bring online. -/
def leastOffline (online : List Nat) (nr_cpus : Nat) : Nat :=
  (((List.range nr_cpus).filter (fun c => decide (c ∉ online)))).headD nr_cpus

/-- Result of one decision cycle: the new value of the global `cycle`
counter, the topology commands issued (in program order) and the return
values the collaborator produced for them (which `asmp_work_fn` discards). -/
structure CycleOut where
  cycle : Nat
  cmds : List TopoCmd
  rets : List Int
deriving DecidableEq, Repr

/-- The decision part of `asmp_work_fn`.  Inputs: the tunables, the value of
the global `cycle` counter before the call, the ascending list of online cpu
ids, the per-core current frequencies, `max_rate = cpufreq_quick_get_max(0)`,
the number of possible cpu ids (`nr_cpu_ids`), and the collaborator return
values for the issued commands (`ret`, ignored by the code). -/
def asmp_work_fn (t : Tunables) (cycle0 : Nat) (online : List Nat)
    (freq : Nat → Nat) (max_rate : Nat) (nr_cpus : Nat) (ret : TopoCmd → Int) : CycleOut :=
  let cycle := (cycle0 + 1) % U32
  let num_cpus := online.length
  let s := scanCpus freq online (freq 0)
  let slow_rate := slowRateFinal freq online
  if upRate t max_rate < slow_rate then
    if num_cpus < t.max_cpus ∧ t.cycle_up ≤ cycle then
      let c := cpumask_next_zero 0 online nr_cpus
      { cycle := 0, cmds := [TopoCmd.up c], rets := [ret (TopoCmd.up c)] }
    else
      { cycle := cycle, cmds := [], rets := [] }
  else if s.slow_cpu ≠ 0 ∧ s.fast_rate < downRate t max_rate then
    if t.min_cpus < num_cpus ∧ t.cycle_down ≤ cycle then
      { cycle := 0, cmds := [TopoCmd.down s.slow_cpu],
        rets := [ret (TopoCmd.down s.slow_cpu)] }
    else
      { cycle := cycle, cmds := [], rets := [] }
  else
    { cycle := cycle, cmds := [], rets := [] }

/-- The topology commands issued by `asmp_suspend`: if enabled and
`scroff_single_core` is set, take offline every present cpu other than cpu 0
that is currently online. -/
def asmp_suspend (enabled : Bool) (t : Tunables) (present : List Nat)
    (online : List Nat) : List TopoCmd :=
  if ¬enabled then []
  else if t.scroff_single_core ≠ 0 then
    (present.filter (fun c => decide (0 < c ∧ c ∈ online))).map TopoCmd.down
  else []

/-- The `for_each_present_cpu` loop of `asmp_resume`.  `num_cpus` is the
online count read once before the loop and never updated; `online` is the
current online mask, updated as `cpu_up` succeeds. -/
def resumeLoop (num_cpus : Nat) (t : Tunables) (online : List Nat) :
    List Nat → List TopoCmd
  | [] => []
  | c :: rest =>
    if t.max_cpus ≤ num_cpus then []
    else if c ∈ online then resumeLoop num_cpus t online rest
    else TopoCmd.up c :: resumeLoop num_cpus t (c :: online) rest

/-- The topology commands issued by `asmp_resume`: if enabled and
`scroff_single_core` is set, walk the present cpus in ascending order and
bring each offline one online unless the pre-loop online count already
reached `max_cpus`. -/
def asmp_resume (enabled : Bool) (t : Tunables) (present : List Nat)
    (online : List Nat) : List TopoCmd :=
  if ¬enabled then []
  else if t.scroff_single_core ≠ 0 then resumeLoop online.length t online present
  else []

/-- The C static initializer of the global counter:
`static unsigned int cycle = 0;` (executed once, at module load). -/
def cycle_init : Nat := 0

/-- Linux error numbers used by the driver. -/
def EFAULT : Int := 14

/-- Linux error number returned for an invalid sysfs write. -/
def EINVAL : Int := 22

/-- The module-global state touched by start/stop and the enabled setter. -/
structure CtrlState where
  enabled : Int
  cycle : Nat
  wq_alive : Bool
  notifier_registered : Bool
  work_queued : Bool
deriving DecidableEq, Repr

/-- Outcomes of the two fallible resource acquisitions in
`asmp_hotplug_start`: whether `alloc_workqueue` returns non-NULL, and the
return value of `state_register_client`. -/
structure StartEnv where
  wq_ok : Bool
  notifier_ret : Int
deriving DecidableEq, Repr

/-- Model of `asmp_hotplug_start`.  On workqueue-allocation failure it
returns `-EFAULT` with nothing acquired; on notifier-registration failure it
destroys the workqueue and returns the notifier error; on success it queues
the initial work and returns 0.  It never touches `cycle` or `enabled`. -/
def asmp_hotplug_start (env : StartEnv) (st : CtrlState) : CtrlState × Int :=
  if ¬env.wq_ok then
    ({ st with wq_alive := false }, -EFAULT)
  else if env.notifier_ret ≠ 0 then
    ({ st with wq_alive := false }, env.notifier_ret)
  else
    ({ st with wq_alive := true, notifier_registered := true, work_queued := true }, 0)

/-- Model of `asmp_hotplug_stop` on the controller state: the work is
cancelled, the notifier unregistered and the workqueue destroyed.  The
`cpu_up` restore loop it also runs only issues `cpu_up` for cpus other than
cpu 0 and touches none of these fields; it is not needed by the claims. -/
def asmp_hotplug_stop (st : CtrlState) : CtrlState :=
  { st with wq_alive := false, notifier_registered := false, work_queued := false }

/-- Model of `store_enabled`.  `parse_ok` is whether `sscanf` matched one
integer, `val` the parsed value, `count` the sysfs write length.  Note that
the return value of `asmp_hotplug_start` is discarded, exactly as in the C
code. -/
def store_enabled (st : CtrlState) (parse_ok : Bool) (val : Int)
    (env : StartEnv) (count : Int) : CtrlState × Int :=
  if ¬parse_ok ∨ val < 0 ∨ 1 < val ∨ val = st.enabled then (st, -EINVAL)
  else
    let st1 : CtrlState := { st with enabled := val }
    if st1.enabled ≠ 0 then ((asmp_hotplug_start env st1).1, count)
    else (asmp_hotplug_stop st1, count)

/-- Constant frequency map: every core at rate 100. -/
def freqAll100 : Nat → Nat := fun _ => 100

/-- Frequency map with the reference core slow: core 0 at 10, others at 50. -/
def freqRefSlow : Nat → Nat := fun c => if c = 0 then 10 else 50

/-- Frequency map with a tie among non-reference cores: core 0 at 100,
others at 50. -/
def freqTie : Nat → Nat := fun c => if c = 0 then 100 else 50

/-- Frequency map for a firing downshift: core 0 at 30, others at 20. -/
def freqDown : Nat → Nat := fun c => if c = 0 then 30 else 20

/-- Constant frequency map: every core at rate 50. -/
def freqAll50 : Nat → Nat := fun _ => 50

/-- Collaborator that reports success for every topology command. -/
def retOk : TopoCmd → Int := fun _ => 0

/-- Collaborator that reports failure (`-EBUSY`) for every topology
command. -/
def retFail : TopoCmd → Int := fun _ => -16

/-- Default tunables of the driver with `CONFIG_NR_CPUS = 4`. -/
def tunDefault : Tunables :=
  { delay := 50, scroff_single_core := 1, max_cpus := 4, min_cpus := 2,
    cpufreq_up := 60, cpufreq_down := 40, cycle_up := 2, cycle_down := 2 }

/-- Tunables with the up threshold below the down threshold
(both sysfs setters accept any value in 1..100 independently). -/
def tunUpLtDown : Tunables :=
  { delay := 50, scroff_single_core := 1, max_cpus := 2, min_cpus := 1,
    cpufreq_up := 10, cpufreq_down := 90, cycle_up := 2, cycle_down := 1 }

/-- Default-like tunables with `min_cpus = 1` and `cycle_down = 1`. -/
def tunMin1 : Tunables :=
  { delay := 50, scroff_single_core := 1, max_cpus := 4, min_cpus := 1,
    cpufreq_up := 60, cpufreq_down := 40, cycle_up := 2, cycle_down := 1 }

/-- Tunables with `max_cpus = 2`. -/
def tunMax2 : Tunables :=
  { delay := 50, scroff_single_core := 1, max_cpus := 2, min_cpus := 1,
    cpufreq_up := 60, cpufreq_down := 40, cycle_up := 2, cycle_down := 2 }

/-- Start environment in which both resource acquisitions succeed. -/
def envOk : StartEnv := { wq_ok := true, notifier_ret := 0 }

/-- Start environment in which `alloc_workqueue` fails. -/
def envWqFail : StartEnv := { wq_ok := false, notifier_ret := 0 }

/-- Controller state: disabled, counter 5, no resources held. -/
def stCycle5 : CtrlState :=
  { enabled := 0, cycle := 5, wq_alive := false,
    notifier_registered := false, work_queued := false }

/-- Controller state: disabled, counter 0, no resources held. -/
def stFresh : CtrlState :=
  { enabled := 0, cycle := 0, wq_alive := false,
    notifier_registered := false, work_queued := false }

/-- Controller state: disabled, counter 7, no resources held. -/
def stCycle7 : CtrlState :=
  { enabled := 0, cycle := 7, wq_alive := false,
    notifier_registered := false, work_queued := false }

/-! Helper lemmas about the scan. -/

theorem scanStep_zero (f : Nat → Nat) (s : ScanState) : scanStep f s 0 = s := by
  simp [scanStep]

theorem scanStep_slow_preserve (f : Nat → Nat) (s : ScanState) (c : Nat)
    (h : ¬f c ≤ s.slow_rate) :
    (scanStep f s c).slow_cpu = s.slow_cpu ∧ (scanStep f s c).slow_rate = s.slow_rate := by
  unfold scanStep
  split_ifs
  all_goals simp_all

theorem scanStep_slow_update (f : Nat → Nat) (s : ScanState) (c : Nat)
    (hc : 0 < c) (h : f c ≤ s.slow_rate) :
    (scanStep f s c).slow_cpu = c ∧ (scanStep f s c).slow_rate = f c := by
  unfold scanStep
  split_ifs
  all_goals simp_all

theorem scanStep_fast_lb (f : Nat → Nat) (s : ScanState) (c : Nat) :
    s.fast_rate ≤ (scanStep f s c).fast_rate := by
  unfold scanStep
  split_ifs with h1 h2 h3 <;> simp_all [Nat.le_of_lt]

theorem scanStep_fast_ub (f : Nat → Nat) (s : ScanState) (c : Nat) :
    (scanStep f s c).fast_rate ≤ max s.fast_rate (f c) := by
  unfold scanStep
  split_ifs <;> simp

theorem foldl_max_init_mono (l : List Nat) :
    ∀ a b : Nat, a ≤ b → l.foldl max a ≤ l.foldl max b := by
  induction l with
  | nil => intro a b h; exact h
  | cons x xs ih =>
    intro a b h
    exact ih (max a x) (max b x) (max_le_max h le_rfl)

theorem scan_fast_lb (f : Nat → Nat) (l : List Nat) :
    ∀ s : ScanState, s.fast_rate ≤ (l.foldl (scanStep f) s).fast_rate := by
  induction l with
  | nil => intro s; exact le_rfl
  | cons c rest ih =>
    intro s
    exact le_trans (scanStep_fast_lb f s c) (ih (scanStep f s c))

theorem scan_fast_ub (f : Nat → Nat) (l : List Nat) :
    ∀ s : ScanState, (l.foldl (scanStep f) s).fast_rate ≤ (l.map f).foldl max s.fast_rate := by
  induction l with
  | nil => intro s; exact le_rfl
  | cons c rest ih =>
    intro s
    calc (rest.foldl (scanStep f) (scanStep f s c)).fast_rate
        ≤ (rest.map f).foldl max (scanStep f s c).fast_rate := ih (scanStep f s c)
      _ ≤ (rest.map f).foldl max (max s.fast_rate (f c)) :=
          foldl_max_init_mono _ _ _ (scanStep_fast_ub f s c)
      _ = ((c :: rest).map f).foldl max s.fast_rate := by simp

theorem scan_slow_cpu_cases (f : Nat → Nat) (l : List Nat) :
    ∀ s : ScanState,
      (l.foldl (scanStep f) s).slow_cpu = s.slow_cpu ∨
      ((l.foldl (scanStep f) s).slow_cpu ∈ l ∧ 0 < (l.foldl (scanStep f) s).slow_cpu) := by
  induction l with
  | nil => intro s; exact Or.inl rfl
  | cons c rest ih =>
    intro s
    have hstep : (scanStep f s c).slow_cpu = s.slow_cpu ∨
        ((scanStep f s c).slow_cpu = c ∧ 0 < c) := by
      unfold scanStep
      split_ifs <;> simp_all
    rcases ih (scanStep f s c) with h | h
    · rcases hstep with h2 | h2
      · refine Or.inl ?_
        rw [List.foldl_cons, h, h2]
      · refine Or.inr ?_
        rw [List.foldl_cons, h, h2.1]
        exact ⟨List.mem_cons_self _ _, h2.2⟩
    · refine Or.inr ⟨List.mem_cons_of_mem _ ?_, ?_⟩
      · rw [List.foldl_cons]
        exact h.1
      · rw [List.foldl_cons]
        exact h.2

/-- Claim C3: for every decision cycle, at most one topology-changing
command (bring-online or take-offline) is issued, even when the upshift and
downshift conditions would both hold. -/
theorem work_fn_at_most_one_cmd (t : Tunables) (cycle0 : Nat) (online : List Nat)
    (freq : Nat → Nat) (max_rate nr_cpus : Nat) (ret : TopoCmd → Int) :
    (asmp_work_fn t cycle0 online freq max_rate nr_cpus ret).cmds.length ≤ 1 := by
  simp only [asmp_work_fn]
  split_ifs <;> simp

/-- Claim C6: the reference core (core 0) is never taken offline: the
decision cycle never issues `cpu_down 0` (and the scan only ever records a
non-reference online core in `slow_cpu`), and the suspend mass-offline loop
never issues `cpu_down 0` either. -/
theorem refcore_never_offlined (t : Tunables) (cycle0 : Nat) (online : List Nat)
    (freq : Nat → Nat) (max_rate nr_cpus : Nat) (ret : TopoCmd → Int)
    (en : Bool) (t2 : Tunables) (present online2 : List Nat) :
    TopoCmd.down 0 ∉ (asmp_work_fn t cycle0 online freq max_rate nr_cpus ret).cmds ∧
    TopoCmd.down 0 ∉ asmp_suspend en t2 present online2 ∧
    ((scanCpus freq online (freq 0)).slow_cpu = 0 ∨
      (0 < (scanCpus freq online (freq 0)).slow_cpu ∧
        (scanCpus freq online (freq 0)).slow_cpu ∈ online)) := by
  refine ⟨?_, ?_, ?_⟩
  · simp only [asmp_work_fn]
    split_ifs with h1 h2 h3 h4
    · simp
    · simp
    · simp only [List.mem_singleton, TopoCmd.down.injEq]
      exact fun h => h3.1 h.symm
    · simp
    · simp
  · unfold asmp_suspend
    split_ifs <;> simp
  · rcases scan_slow_cpu_cases freq online
        { slow_cpu := 0, slow_rate := UINT_MAX, fast_rate := freq 0 } with h | h
    · exact Or.inl h
    · exact Or.inr ⟨h.2, h.1⟩

/-- Witness for C6 at a concrete cycle input. -/
theorem refcore_never_offlined_witness :
    TopoCmd.down 0 ∉ (asmp_work_fn tunMin1 0 [0, 1] freqDown 100 4 retOk).cmds :=
  (refcore_never_offlined tunMin1 0 [0, 1] freqDown 100 4 retOk true tunDefault
    [0, 1, 2, 3] [0, 1]).1

/-- Claim C10: whenever the cycle issues a topology command, the counter is
reset to 0, and both the decision and the new counter value are independent
of the collaborator return values for the issued commands (the code discards
them). -/
theorem cycle_reset_unconditional (t : Tunables) (cycle0 : Nat) (online : List Nat)
    (freq : Nat → Nat) (max_rate nr_cpus : Nat) (ret ret2 : TopoCmd → Int) :
    (asmp_work_fn t cycle0 online freq max_rate nr_cpus ret).cycle
        = (asmp_work_fn t cycle0 online freq max_rate nr_cpus ret2).cycle ∧
    (asmp_work_fn t cycle0 online freq max_rate nr_cpus ret).cmds
        = (asmp_work_fn t cycle0 online freq max_rate nr_cpus ret2).cmds ∧
    ((asmp_work_fn t cycle0 online freq max_rate nr_cpus ret).cmds ≠ [] →
      (asmp_work_fn t cycle0 online freq max_rate nr_cpus ret).cycle = 0) := by
  simp only [asmp_work_fn]
  split_ifs <;> simp

/-- Witness for C10: a cycle that issues a command whose collaborator call
fails still ends with the counter at 0. -/
theorem cycle_reset_unconditional_witness :
    (asmp_work_fn tunDefault 1 [0, 1] freqAll100 100 4 retFail).cmds ≠ [] ∧
    (asmp_work_fn tunDefault 1 [0, 1] freqAll100 100 4 retFail).cycle = 0 :=
  ⟨by decide,
    (cycle_reset_unconditional tunDefault 1 [0, 1] freqAll100 100 4 retFail retOk).2.2
      (by decide)⟩

/-- Claim C7 (falsified by the code): on resume with 4 present cores, only
core 0 online and `max_cpus = 2`, the loop brings all three offline cores
online because the online count it compares against `max_cpus` was read once
before the loop; the resulting online count 4 exceeds `max_cpus = 2`. -/
theorem resume_exceeds_max_cpus :
    asmp_resume true tunMax2 [0, 1, 2, 3] [0]
        = [TopoCmd.up 1, TopoCmd.up 2, TopoCmd.up 3] ∧
    tunMax2.max_cpus = 2 ∧ ([0] : List Nat).length = 1 := by decide

/-- Claim C8 (counterexample): a start transition (`enabled` 0 → 1, both
resource acquisitions succeeding) from a state whose counter is 5 leaves the
counter at 5, not 0. -/
theorem start_does_not_reset_cycle_cex :
    ((store_enabled stCycle5 true 1 envOk 2).1).enabled = 1 ∧
    ((store_enabled stCycle5 true 1 envOk 2).1).cycle = 5 ∧
    ((store_enabled stCycle5 true 1 envOk 2).1).cycle ≠ 0 := by decide

/-- Claim C8 (amended): the decision-cycle counter is initialized to 0 only
by the module-load static initializer; neither `asmp_hotplug_start` nor any
path of `store_enabled` (start or stop) ever writes it, so a start begins
with whatever value the counter had at the previous stop. -/
theorem start_preserves_cycle :
    (∀ (env : StartEnv) (st : CtrlState), ((asmp_hotplug_start env st).1).cycle = st.cycle) ∧
    (∀ (st : CtrlState) (pok : Bool) (val : Int) (env : StartEnv) (cnt : Int),
      ((store_enabled st pok val env cnt).1).cycle = st.cycle) ∧
    cycle_init = 0 := by
  refine ⟨?_, ?_, rfl⟩
  · intro env st
    unfold asmp_hotplug_start
    split_ifs <;> rfl
  · intro st pok val env cnt
    simp only [store_enabled, asmp_hotplug_start, asmp_hotplug_stop]
    split_ifs <;> rfl

/-- Claim C9 (counterexample): writing 1 to `enabled` while the workqueue
allocation fails leaves `enabled` at 1 (it does not revert to 0) and the
setter returns `count = 2` (success), even though `asmp_hotplug_start`
itself returned a nonzero error that `store_enabled` discarded. -/
theorem start_failure_not_reverted_cex :
    (store_enabled stFresh true 1 envWqFail 2).1.enabled = 1 ∧
    (store_enabled stFresh true 1 envWqFail 2).2 = 2 ∧
    (asmp_hotplug_start envWqFail stFresh).2 ≠ 0 := by decide

/-- Claim C9 (amended): if start fails, no controller resources are retained
(workqueue gone, notifier unregistered, no work queued) and start's internal
return code is nonzero, but `enabled` stays at the newly written value 1 and
`store_enabled` reports success (`count`) to its caller; the failure is not
propagated. -/
theorem start_failure_semantics (st : CtrlState) (env : StartEnv) (cnt : Int)
    (he : st.enabled = 0) (hn : st.notifier_registered = false)
    (hw : st.work_queued = false)
    (hfail : env.wq_ok = false ∨ env.notifier_ret ≠ 0) :
    (store_enabled st true 1 env cnt).1.enabled = 1 ∧
    (store_enabled st true 1 env cnt).2 = cnt ∧
    (store_enabled st true 1 env cnt).1.wq_alive = false ∧
    (store_enabled st true 1 env cnt).1.notifier_registered = false ∧
    (store_enabled st true 1 env cnt).1.work_queued = false ∧
    (asmp_hotplug_start env st).2 ≠ 0 := by
  rcases hfail with hf | hf
  · simp [store_enabled, asmp_hotplug_start, he, hf, hn, hw, EFAULT]
  · by_cases hwq : env.wq_ok
    · simp [store_enabled, asmp_hotplug_start, he, hf, hn, hw, hwq, EFAULT]
    · simp [store_enabled, asmp_hotplug_start, he, hf, hn, hw, hwq, EFAULT]

/-- Witness for the amended C9 at a concrete state and environment. -/
theorem start_failure_semantics_witness :
    (store_enabled stCycle7 true 1 envWqFail 2).1.enabled = 1 ∧
    (store_enabled stCycle7 true 1 envWqFail 2).2 = 2 := by
  have h := start_failure_semantics stCycle7 envWqFail 2 rfl rfl rfl (Or.inl rfl)
  exact ⟨h.1, h.2.1⟩

/-- Claim C2 (counterexample): with `cpufreq_up = 10`, `cpufreq_down = 90`,
`max_cpus = 2`, `min_cpus = 1`, `cycle_down = 1`, two online cores both at
rate 50 and `max_rate = 100`, every condition the claim lists for the
downshift holds (valid `slow_cpu`, `fast_rate < down_rate`, online count
above `min_cpus`, counter at `cycle_down`), yet no command is issued: the
cycle took the upshift branch because `slow_rate > up_rate`. -/
theorem downshift_not_exact_cex :
    (scanCpus freqAll50 [0, 1] (freqAll50 0)).slow_cpu ≠ 0 ∧
    (scanCpus freqAll50 [0, 1] (freqAll50 0)).fast_rate < downRate tunUpLtDown 100 ∧
    tunUpLtDown.min_cpus < ([0, 1] : List Nat).length ∧
    tunUpLtDown.cycle_down ≤ (0 + 1) % U32 ∧
    (asmp_work_fn tunUpLtDown 0 [0, 1] freqAll50 100 4 retOk).cmds = [] := by decide

/-- Claim C4 (counterexample): with core 0 at rate 10 and core 1 at rate 50,
the scan leaves `fast_rate = 10` although the maximum of the reference rate
and the online cores' rates is 50: core 1 took the `slow_rate` branch, so
its rate was never compared against `fast_rate`. -/
theorem fast_rate_not_max_cex :
    (scanCpus freqRefSlow [0, 1] (freqRefSlow 0)).fast_rate = 10 ∧
    (([0, 1] : List Nat).map freqRefSlow).foldl max (freqRefSlow 0) = 50 ∧
    (10 : Nat) ≠ 50 := by decide

/-- Claim C5 (counterexample): cores 1 and 2 tie for the minimum rate 50;
the `<=` comparison lets the later core overwrite the earlier one, so
`slow_cpu` ends as 2, not the lowest-numbered tied core 1. -/
theorem slow_core_tie_cex :
    freqTie 1 = freqTie 2 ∧
    (scanCpus freqTie [0, 1, 2] (freqTie 0)).slow_rate = freqTie 1 ∧
    (scanCpus freqTie [0, 1, 2] (freqTie 0)).slow_cpu = 2 ∧
    (2 : Nat) ≠ 1 := by decide

/-! Characterization of the scan: restriction to positive cpu ids, bounds on
`fast_rate`, and the slow-core/last-minimum characterization. -/

theorem scan_filter_pos (f : Nat → Nat) (l : List Nat) :
    ∀ s : ScanState,
      l.foldl (scanStep f) s = (l.filter (fun c => decide (0 < c))).foldl (scanStep f) s := by
  induction l with
  | nil => intro s; rfl
  | cons c rest ih =>
    intro s
    by_cases hc : 0 < c
    · have hfc : (c :: rest).filter (fun x => decide (0 < x))
          = c :: rest.filter (fun x => decide (0 < x)) := by
        simp [List.filter_cons, hc]
      rw [hfc, List.foldl_cons, List.foldl_cons]
      exact ih (scanStep f s c)
    · have hc0 : c = 0 := Nat.eq_zero_of_not_pos hc
      subst hc0
      have hfc : ((0 : Nat) :: rest).filter (fun x => decide (0 < x))
          = rest.filter (fun x => decide (0 < x)) := by
        simp [List.filter_cons]
      rw [hfc, List.foldl_cons, scanStep_zero]
      exact ih s

theorem scan_slow_char (f : Nat → Nat) (z fr : Nat) (l : List Nat) :
    (∀ c ∈ l, 0 < c) → (∀ c ∈ l, f c ≤ UINT_MAX) → List.Pairwise (· < ·) l → l ≠ [] →
    ((l.foldl (scanStep f) ⟨z, UINT_MAX, fr⟩).slow_cpu ∈ l ∧
      f ((l.foldl (scanStep f) ⟨z, UINT_MAX, fr⟩).slow_cpu)
        = (l.foldl (scanStep f) ⟨z, UINT_MAX, fr⟩).slow_rate ∧
      (∀ c ∈ l, (l.foldl (scanStep f) ⟨z, UINT_MAX, fr⟩).slow_rate ≤ f c) ∧
      (∀ c ∈ l, f c = (l.foldl (scanStep f) ⟨z, UINT_MAX, fr⟩).slow_rate →
        c ≤ (l.foldl (scanStep f) ⟨z, UINT_MAX, fr⟩).slow_cpu)) := by
  induction l using List.reverseRecOn with
  | nil => intro _ _ _ hne; exact absurd rfl hne
  | append_singleton l a ih =>
    intro hpos hbound hpair _
    have hfold : (l ++ [a]).foldl (scanStep f) ⟨z, UINT_MAX, fr⟩
        = scanStep f (l.foldl (scanStep f) ⟨z, UINT_MAX, fr⟩) a := by
      rw [List.foldl_append]
      rfl
    have hposa : 0 < a := hpos a (List.mem_append_right _ (List.mem_singleton_self a))
    have hbounda : f a ≤ UINT_MAX :=
      hbound a (List.mem_append_right _ (List.mem_singleton_self a))
    have hlt : ∀ c ∈ l, c < a := by
      have hp := List.pairwise_append.mp hpair
      exact fun c hc => hp.2.2 c hc a (List.mem_singleton_self a)
    rcases eq_or_ne l [] with rfl | hlne
    · simp only [List.nil_append] at hfold ⊢
      rw [List.foldl_nil] at hfold
      have hupd := scanStep_slow_update f ⟨z, UINT_MAX, fr⟩ a hposa hbounda
      rw [hfold]
      refine ⟨?_, ?_, ?_, ?_⟩
      · rw [hupd.1]
        exact List.mem_singleton_self a
      · rw [hupd.1, hupd.2]
      · intro c hcm
        rw [List.mem_singleton] at hcm
        subst hcm
        rw [hupd.2]
      · intro c hcm _
        rw [List.mem_singleton] at hcm
        subst hcm
        rw [hupd.1]
    · have hpos' : ∀ c ∈ l, 0 < c := fun c hc => hpos c (List.mem_append_left _ hc)
      have hbound' : ∀ c ∈ l, f c ≤ UINT_MAX := fun c hc => hbound c (List.mem_append_left _ hc)
      have hpair' : List.Pairwise (· < ·) l := (List.pairwise_append.mp hpair).1
      obtain ⟨h1, h2, h3, h4⟩ := ih hpos' hbound' hpair' hlne
      by_cases hle : f a ≤ (l.foldl (scanStep f) ⟨z, UINT_MAX, fr⟩).slow_rate
      · have hupd := scanStep_slow_update f (l.foldl (scanStep f) ⟨z, UINT_MAX, fr⟩) a hposa hle
        rw [hfold]
        refine ⟨?_, ?_, ?_, ?_⟩
        · rw [hupd.1]
          exact List.mem_append_right _ (List.mem_singleton_self a)
        · rw [hupd.1, hupd.2]
        · intro c hcm
          rw [hupd.2]
          rcases List.mem_append.mp hcm with hcm | hcm
          · exact le_trans hle (h3 c hcm)
          · rw [List.mem_singleton] at hcm
            subst hcm
            exact le_rfl
        · intro c hcm _
          rw [hupd.1]
          rcases List.mem_append.mp hcm with hcm | hcm
          · exact Nat.le_of_lt (hlt c hcm)
          · rw [List.mem_singleton] at hcm
            subst hcm
            exact le_rfl
      · have hpre := scanStep_slow_preserve f (l.foldl (scanStep f) ⟨z, UINT_MAX, fr⟩) a hle
        rw [hfold]
        refine ⟨?_, ?_, ?_, ?_⟩
        · rw [hpre.1]
          exact List.mem_append_left _ h1
        · rw [hpre.1, hpre.2]
          exact h2
        · intro c hcm
          rw [hpre.2]
          rcases List.mem_append.mp hcm with hcm | hcm
          · exact h3 c hcm
          · rw [List.mem_singleton] at hcm
            subst hcm
            exact le_of_lt (not_le.mp hle)
        · intro c hcm hceq
          rw [hpre.1]
          rw [hpre.2] at hceq
          rcases List.mem_append.mp hcm with hcm | hcm
          · exact h4 c hcm hceq
          · rw [List.mem_singleton] at hcm
            subst hcm
            exact absurd (le_of_eq hceq) hle

/-- Claim C4 (amended): after the scan, `fast_rate` is at least the
reference rate it was seeded with and at most the maximum of the reference
rate and all online cores' rates; it need not equal that maximum, because a
core whose rate takes the `slow_rate` branch is never compared against
`fast_rate` (see the counterexample). -/
theorem fast_rate_bounds (freq : Nat → Nat) (online : List Nat) :
    freq 0 ≤ (scanCpus freq online (freq 0)).fast_rate ∧
    (scanCpus freq online (freq 0)).fast_rate ≤ (online.map freq).foldl max (freq 0) := by
  exact ⟨scan_fast_lb freq online ⟨0, UINT_MAX, freq 0⟩,
    scan_fast_ub freq online ⟨0, UINT_MAX, freq 0⟩⟩

/-- Claim C5 (amended): when non-reference online cores tie for the minimum
observed frequency, `slow_cpu` is the LAST such core encountered in
ascending core-id order, i.e. the highest-numbered core among those tied for
slowest (the `<=` comparison lets later ties overwrite earlier ones).
Stated over the non-reference online cores (`online` listed in ascending
order, rates within the unsigned range): `slow_cpu` is one of them, its rate
equals `slow_rate`, `slow_rate` is minimal, and every tied core has an id at
most `slow_cpu`. -/
theorem slow_core_highest_tied (freq : Nat → Nat) (online : List Nat)
    (hpair : List.Pairwise (· < ·) online)
    (hbound : ∀ c ∈ online, freq c ≤ UINT_MAX)
    (hne : online.filter (fun c => decide (0 < c)) ≠ []) :
    (scanCpus freq online (freq 0)).slow_cpu ∈ online.filter (fun c => decide (0 < c)) ∧
    freq ((scanCpus freq online (freq 0)).slow_cpu) = (scanCpus freq online (freq 0)).slow_rate ∧
    (∀ c ∈ online.filter (fun c => decide (0 < c)),
      (scanCpus freq online (freq 0)).slow_rate ≤ freq c) ∧
    (∀ c ∈ online.filter (fun c => decide (0 < c)),
      freq c = (scanCpus freq online (freq 0)).slow_rate →
        c ≤ (scanCpus freq online (freq 0)).slow_cpu) := by
  have hrw : scanCpus freq online (freq 0)
      = (online.filter (fun c => decide (0 < c))).foldl (scanStep freq)
          ⟨0, UINT_MAX, freq 0⟩ := scan_filter_pos freq online _
  rw [hrw]
  apply scan_slow_char freq 0 (freq 0) (online.filter (fun c => decide (0 < c)))
  · intro c hcm
    exact of_decide_eq_true (List.mem_filter.mp hcm).2
  · intro c hcm
    exact hbound c (List.mem_filter.mp hcm).1
  · exact hpair.filter _
  · exact hne

/-- Witness for the amended C5 at the tie counterexample input. -/
theorem slow_core_highest_tied_witness :
    freqTie ((scanCpus freqTie [0, 1, 2] (freqTie 0)).slow_cpu)
        = (scanCpus freqTie [0, 1, 2] (freqTie 0)).slow_rate ∧
    (scanCpus freqTie [0, 1, 2] (freqTie 0)).slow_cpu
        ∈ ([0, 1, 2] : List Nat).filter (fun c => decide (0 < c)) := by
  have h := slow_core_highest_tied freqTie [0, 1, 2] (by decide) (by decide) (by decide)
  exact ⟨h.2.1, h.1⟩

/-! Characterization of the offline-core choice made by the upshift. -/

theorem next_zero_eq_leastOffline (online : List Nat) (nr_cpus : Nat)
    (h0 : 0 ∈ online) :
    cpumask_next_zero 0 online nr_cpus = leastOffline online nr_cpus := by
  unfold cpumask_next_zero leastOffline
  congr 1
  apply List.filter_congr
  intro x _
  rcases Nat.eq_zero_or_pos x with rfl | hpos
  · simp [h0]
  · simp [hpos]

theorem leastOffline_spec (online : List Nat) (nr_cpus : Nat)
    (hlen : online.length < nr_cpus) :
    leastOffline online nr_cpus < nr_cpus ∧
    leastOffline online nr_cpus ∉ online ∧
    (∀ c, c < nr_cpus → c ∉ online → leastOffline online nr_cpus ≤ c) := by
  have hne : (List.range nr_cpus).filter (fun c => decide (c ∉ online)) ≠ [] := by
    intro hempty
    have hsub : Finset.range nr_cpus ⊆ online.toFinset := by
      intro c hcm
      rw [List.mem_toFinset]
      have hcr : c ∈ List.range nr_cpus := List.mem_range.mpr (Finset.mem_range.mp hcm)
      have hnp := List.filter_eq_nil_iff.mp hempty c hcr
      by_contra hcon
      exact hnp (decide_eq_true hcon)
    have hcard : nr_cpus ≤ online.toFinset.card := by
      simpa using Finset.card_le_card hsub
    have hcard2 := List.toFinset_card_le online
    omega
  cases hLc : (List.range nr_cpus).filter (fun c => decide (c ∉ online)) with
  | nil => exact absurd hLc hne
  | cons a tail =>
    have hhead : leastOffline online nr_cpus = a := by
      unfold leastOffline
      rw [hLc]
      rfl
    have hamem : a ∈ List.range nr_cpus ∧ decide (a ∉ online) = true := by
      apply List.mem_filter.mp
      rw [hLc]
      exact List.mem_cons_self a tail
    have hpairL : List.Pairwise (· < ·) (a :: tail) := by
      rw [← hLc]
      exact (List.pairwise_lt_range nr_cpus).filter _
    refine ⟨?_, ?_, ?_⟩
    · rw [hhead]
      exact List.mem_range.mp hamem.1
    · rw [hhead]
      exact of_decide_eq_true hamem.2
    · intro c hcl hcno
      rw [hhead]
      have hcL : c ∈ a :: tail := by
        rw [← hLc]
        exact List.mem_filter.mpr ⟨List.mem_range.mpr hcl, decide_eq_true hcno⟩
      rcases List.mem_cons.mp hcL with rfl | hct
      · exact le_rfl
      · exact Nat.le_of_lt ((List.pairwise_cons.mp hpairL).1 c hct)

/-- Claim C1: the upshift fires exactly when `slow_rate > up_rate`, the
online count is below `max_cpus` and the (just incremented) cycle counter
has reached `cycle_up`; when it fires, the command issued is `cpu_up` on the
lowest-numbered currently-offline core (provided the reference core 0 is
online, as `cpumask_next_zero(0, mask)` only searches ids above 0), that
core is a genuine non-reference offline core, and the counter is reset
to 0. -/
theorem upshift_fires_iff (t : Tunables) (cycle0 : Nat) (online : List Nat)
    (freq : Nat → Nat) (max_rate nr_cpus : Nat) (ret : TopoCmd → Int)
    (h0 : 0 ∈ online) (hmax : t.max_cpus ≤ nr_cpus) :
    ((∃ c, TopoCmd.up c ∈ (asmp_work_fn t cycle0 online freq max_rate nr_cpus ret).cmds) ↔
      (upRate t max_rate < slowRateFinal freq online ∧ online.length < t.max_cpus ∧
        t.cycle_up ≤ (cycle0 + 1) % U32)) ∧
    (upRate t max_rate < slowRateFinal freq online → online.length < t.max_cpus →
      t.cycle_up ≤ (cycle0 + 1) % U32 →
      ((asmp_work_fn t cycle0 online freq max_rate nr_cpus ret).cmds
          = [TopoCmd.up (leastOffline online nr_cpus)] ∧
        (asmp_work_fn t cycle0 online freq max_rate nr_cpus ret).cycle = 0 ∧
        leastOffline online nr_cpus ∉ online ∧
        0 < leastOffline online nr_cpus ∧
        leastOffline online nr_cpus < nr_cpus ∧
        (∀ c, c < nr_cpus → c ∉ online → leastOffline online nr_cpus ≤ c))) := by
  constructor
  · simp only [asmp_work_fn]
    split_ifs with h1 h2 h3 h4
    · constructor
      · intro _
        exact ⟨h1, h2.1, h2.2⟩
      · intro _
        exact ⟨_, List.mem_singleton_self _⟩
    · constructor
      · intro hex
        rcases hex with ⟨c, hcm⟩
        simp at hcm
      · intro hrhs
        exact absurd ⟨hrhs.2.1, hrhs.2.2⟩ h2
    · constructor
      · intro hex
        rcases hex with ⟨c, hcm⟩
        simp at hcm
      · intro hrhs
        exact absurd hrhs.1 h1
    · constructor
      · intro hex
        rcases hex with ⟨c, hcm⟩
        simp at hcm
      · intro hrhs
        exact absurd hrhs.1 h1
    · constructor
      · intro hex
        rcases hex with ⟨c, hcm⟩
        simp at hcm
      · intro hrhs
        exact absurd hrhs.1 h1
  · intro ha hb hcy
    obtain ⟨hs1, hs2, hs3⟩ := leastOffline_spec online nr_cpus (lt_of_lt_of_le hb hmax)
    have hnz : cpumask_next_zero 0 online nr_cpus = leastOffline online nr_cpus :=
      next_zero_eq_leastOffline online nr_cpus h0
    have hposl : 0 < leastOffline online nr_cpus := by
      rcases Nat.eq_zero_or_pos (leastOffline online nr_cpus) with hz | hp
      · rw [hz] at hs2
        exact absurd h0 hs2
      · exact hp
    simp only [asmp_work_fn]
    split_ifs with h1
    · exact ⟨by rw [hnz], rfl, hs2, hposl, hs1, hs3⟩
    · exact absurd ⟨hb, hcy⟩ h1

/-- Witness for C1 at a concrete firing input: two cores online at rate 100,
threshold 60, counter reaching `cycle_up`. -/
theorem upshift_fires_iff_witness :
    (asmp_work_fn tunDefault 1 [0, 1] freqAll100 100 4 retOk).cmds
        = [TopoCmd.up (leastOffline [0, 1] 4)] ∧
    (asmp_work_fn tunDefault 1 [0, 1] freqAll100 100 4 retOk).cycle = 0 := by
  have h := (upshift_fires_iff tunDefault 1 [0, 1] freqAll100 100 4 retOk
    (by decide) (by decide)).2 (by decide) (by decide) (by decide)
  exact ⟨h.1, h.2.1⟩

/-- Claim C2 (amended): the downshift fires exactly when, in addition to the
claim's four conditions (valid non-reference `slow_cpu`,
`fast_rate < down_rate`, online count above `min_cpus`, counter at
`cycle_down`), the upshift precondition fails, i.e.
`slow_rate ≤ up_rate` — the downshift is the else-branch of the upshift
test; when it fires, `slow_cpu` is taken offline and the counter is reset
to 0. -/
theorem downshift_fires_iff (t : Tunables) (cycle0 : Nat) (online : List Nat)
    (freq : Nat → Nat) (max_rate nr_cpus : Nat) (ret : TopoCmd → Int) :
    ((∃ c, TopoCmd.down c ∈ (asmp_work_fn t cycle0 online freq max_rate nr_cpus ret).cmds) ↔
      (slowRateFinal freq online ≤ upRate t max_rate ∧
        (scanCpus freq online (freq 0)).slow_cpu ≠ 0 ∧
        (scanCpus freq online (freq 0)).fast_rate < downRate t max_rate ∧
        t.min_cpus < online.length ∧
        t.cycle_down ≤ (cycle0 + 1) % U32)) ∧
    (slowRateFinal freq online ≤ upRate t max_rate →
      (scanCpus freq online (freq 0)).slow_cpu ≠ 0 →
      (scanCpus freq online (freq 0)).fast_rate < downRate t max_rate →
      t.min_cpus < online.length →
      t.cycle_down ≤ (cycle0 + 1) % U32 →
      ((asmp_work_fn t cycle0 online freq max_rate nr_cpus ret).cmds
          = [TopoCmd.down ((scanCpus freq online (freq 0)).slow_cpu)] ∧
        (asmp_work_fn t cycle0 online freq max_rate nr_cpus ret).cycle = 0)) := by
  constructor
  · simp only [asmp_work_fn]
    split_ifs with h1 h2 h3 h4
    · constructor
      · intro hex
        rcases hex with ⟨c, hcm⟩
        simp at hcm
      · intro hrhs
        exact absurd h1 (not_lt.mpr hrhs.1)
    · constructor
      · intro hex
        rcases hex with ⟨c, hcm⟩
        simp at hcm
      · intro hrhs
        exact absurd h1 (not_lt.mpr hrhs.1)
    · constructor
      · intro _
        exact ⟨not_lt.mp h1, h3.1, h3.2, h4.1, h4.2⟩
      · intro _
        exact ⟨_, List.mem_singleton_self _⟩
    · constructor
      · intro hex
        rcases hex with ⟨c, hcm⟩
        simp at hcm
      · intro hrhs
        exact absurd ⟨hrhs.2.2.2.1, hrhs.2.2.2.2⟩ h4
    · constructor
      · intro hex
        rcases hex with ⟨c, hcm⟩
        simp at hcm
      · intro hrhs
        exact absurd ⟨hrhs.2.1, hrhs.2.2.1⟩ h3
  · intro ha hb hc hd he
    simp only [asmp_work_fn]
    split_ifs with h1 h2 h3 h4
    · exact absurd h1 (not_lt.mpr ha)
    · exact absurd h1 (not_lt.mpr ha)
    · exact ⟨rfl, rfl⟩
    · exact absurd ⟨hd, he⟩ h4
    · exact absurd ⟨hb, hc⟩ h3

/-- Witness for the amended C2 at a concrete firing input: core 0 at 30 and
core 1 at 20, thresholds 60/40, `min_cpus = 1`, `cycle_down = 1`. -/
theorem downshift_fires_iff_witness :
    (asmp_work_fn tunMin1 0 [0, 1] freqDown 100 4 retOk).cmds
        = [TopoCmd.down ((scanCpus freqDown [0, 1] (freqDown 0)).slow_cpu)] ∧
    (asmp_work_fn tunMin1 0 [0, 1] freqDown 100 4 retOk).cycle = 0 :=
  (downshift_fires_iff tunMin1 0 [0, 1] freqDown 100 4 retOk).2
    (by decide) (by decide) (by decide) (by decide) (by decide)
